import Mathlib

/-!
Verification development for the stereo-play repository.

JavaScript / TypeScript numbers are modelled as rationals (all the
arithmetic the verified code performs on them - addition, subtraction,
halving - is exact on the values that occur), booleans as `Bool`,
strings as `String`, `Date.now()` as an explicit parameter, JS `Map`s
as insertion-ordered association lists, and `null`/`undefined` as
`Option`.
-/

namespace StereoPlay

/-! ## Clock sync client (public/js/SyncManager.js, class SyncManager) -/

/-- One latency/offset sample pushed by `handlePong`. -/
structure Sample where
  latency : ℚ
  offset : ℚ
deriving DecidableEq

/-- The mutable fields of the SyncManager object that `handlePong` touches. -/
structure SyncState where
  clockOffset : ℚ
  latencySamples : List Sample
deriving DecidableEq

/-- `new SyncManager()`: clockOffset 0, no samples. -/
def SyncState.init : SyncState := { clockOffset := 0, latencySamples := [] }

/-- Stable insertion of a sample into a list sorted by ascending offset
(the element goes before the first element with an offset ≥ its own,
matching a stable comparator sort). -/
def insertSample (s : Sample) : List Sample → List Sample
  | [] => [s]
  | t :: ts => if s.offset ≤ t.offset then s :: t :: ts else t :: insertSample s ts

/-- `[...this.latencySamples].sort((a, b) => a.offset - b.offset)`:
a stable sort by ascending offset. -/
def sortSamples : List Sample → List Sample
  | [] => []
  | s :: rest => insertSample s (sortSamples rest)

/-- SyncManager.handlePong: push the new sample, shift if more than 5 are
stored, set `clockOffset` to the offset of the sorted middle sample.
Returns the new state together with the payload handed to the `onPong`
callback. -/
def handlePong (st : SyncState) (serverTimestamp clientTimestamp now : ℚ) :
    SyncState × Sample :=
  let rtt := now - clientTimestamp
  let latency := rtt / 2
  let offset := serverTimestamp - clientTimestamp - latency
  let pushed := st.latencySamples ++ [⟨latency, offset⟩]
  let kept := if pushed.length > 5 then pushed.drop 1 else pushed
  let sorted := sortSamples kept
  let median := sorted.getD (sorted.length / 2) ⟨0, 0⟩
  ({ clockOffset := median.offset, latencySamples := kept },
   ⟨latency, median.offset⟩)

/-- SyncManager.serverTimeToLocal. -/
def serverTimeToLocal (st : SyncState) (serverTime : ℚ) : ℚ :=
  serverTime - st.clockOffset

/-- SyncManager.localTimeToServer. -/
def localTimeToServer (st : SyncState) (localTime : ℚ) : ℚ :=
  localTime + st.clockOffset

/-- Stable insertion into a list of rationals sorted ascending. -/
def insertRat (x : ℚ) : List ℚ → List ℚ
  | [] => [x]
  | y :: ys => if x ≤ y then x :: y :: ys else y :: insertRat x ys

/-- Stable ascending sort of a list of rationals. -/
def sortRat : List ℚ → List ℚ
  | [] => []
  | x :: rest => insertRat x (sortRat rest)

/-- The median of an odd-length list of rationals: the middle element of
the ascending sort (spec-level notion used to state the clock-sync claim). -/
def median (l : List ℚ) : ℚ := (sortRat l).getD (l.length / 2) 0

/-- Run `handlePong` over a list of `(serverTimestamp, clientTimestamp, now)`
pong inputs, oldest first. -/
def runPongs (st : SyncState) : List (ℚ × ℚ × ℚ) → SyncState
  | [] => st
  | p :: ps => runPongs (handlePong st p.1 p.2.1 p.2.2).1 ps

/-! ## Status machine (public/js/SyncManager.js, class StatusMachine) -/

/-- The four named states; the JS `null` state is `Option.none`. -/
inductive StStatus where
  | loading
  | ready
  | playing
  | paused
deriving DecidableEq, Fintype

/-- The transition events. -/
inductive StEvent where
  | LOAD
  | AUTO_READY
  | PLAY
  | PAUSE
  | ERROR
deriving DecidableEq, Fintype

open StStatus StEvent in
/-- The `this.transitions` table: `transitions s e = some s2` when the
table row for `s` has an entry for `e` leading to `s2` (the entry
`ERROR: null` leads back to the null state). -/
def stTransitions : Option StStatus → StEvent → Option (Option StStatus)
  | none, LOAD => some (some loading)
  | some loading, AUTO_READY => some (some ready)
  | some loading, ERROR => some none
  | some loading, LOAD => some (some loading)
  | some ready, PLAY => some (some playing)
  | some ready, LOAD => some (some loading)
  | some playing, PAUSE => some (some paused)
  | some playing, LOAD => some (some loading)
  | some paused, PLAY => some (some playing)
  | some paused, LOAD => some (some loading)
  | _, _ => none

open StStatus in
/-- `this.labels[state] || ''` (the null state has no entry, giving ''). -/
def stLabel : Option StStatus → String
  | some loading => "Loading"
  | some ready => "Ready"
  | some playing => "Playing"
  | some paused => "Paused"
  | none => ""

/-- StatusMachine.send: on a transition found in the table, move to the
new state, notify every listener with `(newState, label)` and return true;
otherwise warn and return false leaving the state unchanged.  The result is
`(new state, returned boolean, payload passed to each registered listener)`. -/
def stSend (state : Option StStatus) (e : StEvent) :
    Option StStatus × Bool × Option (Option StStatus × String) :=
  match stTransitions state e with
  | none => (state, false, none)
  | some s2 => (s2, true, some (s2, stLabel s2))

open StStatus StEvent in
/-- The transition table exactly as the specification prints it
(rows ∅/loading/ready/playing/paused, columns LOAD/AUTO_READY/PLAY/PAUSE/ERROR). -/
def specTransitionTable : Option StStatus → StEvent → Option (Option StStatus)
  | _, LOAD => some (some loading)
  | some loading, AUTO_READY => some (some ready)
  | some ready, PLAY => some (some playing)
  | some paused, PLAY => some (some playing)
  | some playing, PAUSE => some (some paused)
  | some loading, ERROR => some none
  | _, _ => none

/-! ## Session store (src/services/SessionManager.ts) -/

/-- The `Channel` string union type. -/
inductive Channel where
  | left
  | right
  | stereo
deriving DecidableEq

/-- The string value a `Channel` is in TypeScript. -/
def Channel.str : Channel → String
  | .left => "left"
  | .right => "right"
  | .stereo => "stereo"

/-- `AudioSource.files`. -/
structure AudioFiles where
  stereo : String
  left : String
  right : String
deriving DecidableEq

/-- The `AudioSource` interface. -/
structure AudioSource where
  url : String
  title : String
  duration : ℚ
  files : AudioFiles
deriving DecidableEq

/-- The `PlaybackState` interface. -/
structure PlaybackState where
  isPlaying : Bool
  currentTime : ℚ
  lastSyncTimestamp : ℤ
deriving DecidableEq

/-- The `ClientInfo` interface.  The WebSocket handle is reduced to the
one bit the store reads from it: whether `readyState === 1` (open). -/
structure ClientInfo where
  id : String
  wsOpen : Bool
  assignedChannel : Channel
  latency : ℚ
  isReady : Bool
deriving DecidableEq

/-- The `Session` interface.  `clients` is a JS Map keyed by client id,
modelled as an insertion-ordered list with pairwise distinct ids. -/
structure Session where
  id : String
  createdAt : ℤ
  audioSource : Option AudioSource
  playbackState : PlaybackState
  clients : List ClientInfo
deriving DecidableEq

/-- Association-list lookup (JS `Map.get`). -/
def lookupA {α : Type} (k : String) : List (String × α) → Option α
  | [] => none
  | (k2, v) :: rest => if k2 = k then some v else lookupA k rest

/-- Association-list update (JS `Map.set` / object index assignment):
replaces the value in place when the key exists, appends otherwise. -/
def setA {α : Type} (k : String) (v : α) : List (String × α) → List (String × α)
  | [] => [(k, v)]
  | (k2, w) :: rest => if k2 = k then (k2, v) :: rest else (k2, w) :: setA k v rest

/-- Association-list removal (JS `Map.delete`). -/
def eraseA {α : Type} (k : String) (m : List (String × α)) : List (String × α) :=
  m.filter (fun e => e.1 ≠ k)

/-- The SessionManager's `sessions` map. -/
structure SessionMgr where
  sessions : List (String × Session)
deriving DecidableEq

/-- Number of clients assigned to a given channel. -/
def countChannel (clients : List ClientInfo) (ch : Channel) : ℕ :=
  (clients.filter (fun c => c.assignedChannel = ch)).length

/-- SessionManager.assignChannel: count left and right assignments; first
fill left, then right, then balance with ties to left. -/
def assignChannel (clients : List ClientInfo) : Channel :=
  let leftCount := countChannel clients .left
  let rightCount := countChannel clients .right
  if leftCount = 0 then .left
  else if rightCount = 0 then .right
  else if leftCount ≤ rightCount then .left else .right

/-- The channel-assignment policy in the specification's words: the
less-populated of left and right, ties going to left (which gives the
first client left and the second right). -/
def specAssignChannel (clients : List ClientInfo) : Channel :=
  if countChannel clients .left ≤ countChannel clients .right then .left else .right

/-- A fresh session as built by `createSession` (and re-keyed by
`getOrCreateSession` to the requested id). -/
def freshSession (sessionId : String) (now : ℤ) : Session :=
  { id := sessionId
    createdAt := now
    audioSource := none
    playbackState := { isPlaying := false, currentTime := 0, lastSyncTimestamp := now }
    clients := [] }

/-- SessionManager.getOrCreateSession. -/
def getOrCreateSession (mgr : SessionMgr) (sessionId : String) (now : ℤ) :
    SessionMgr × Session :=
  match lookupA sessionId mgr.sessions with
  | some s => (mgr, s)
  | none =>
      let s := freshSession sessionId now
      ({ sessions := setA sessionId s mgr.sessions }, s)

/-- SessionManager.addClient: create the session if needed, draw the
channel from `assignChannel`, insert the new client (id freshly generated
by nanoid, passed here as a parameter). -/
def addClient (mgr : SessionMgr) (sessionId clientId : String) (now : ℤ) :
    SessionMgr × ClientInfo :=
  let (mgr1, session) := getOrCreateSession mgr sessionId now
  let channel := assignChannel session.clients
  let client : ClientInfo :=
    { id := clientId, wsOpen := true, assignedChannel := channel
      latency := 0, isReady := false }
  let session2 := { session with clients := session.clients ++ [client] }
  ({ sessions := setA sessionId session2 mgr1.sessions }, client)

/-- SessionManager.removeClient, minus the timer side effect: delete the
client; report whether the 60 s cleanup timeout was scheduled (it is
scheduled exactly when the session exists and, after the deletion, has no
clients and no audioSource). -/
def removeClient (mgr : SessionMgr) (sessionId clientId : String) :
    SessionMgr × Bool :=
  match lookupA sessionId mgr.sessions with
  | none => (mgr, false)
  | some session =>
      let session2 := { session with clients := session.clients.filter (fun c => c.id ≠ clientId) }
      let sched := session2.clients.isEmpty && session2.audioSource.isNone
      ({ sessions := setA sessionId session2 mgr.sessions }, sched)

/-- The body of the `setTimeout` callback in removeClient: delete the
session iff it still exists, is still empty and still has no audioSource. -/
def sweepSession (mgr : SessionMgr) (sessionId : String) : SessionMgr :=
  match lookupA sessionId mgr.sessions with
  | none => mgr
  | some s =>
      if s.clients.isEmpty && s.audioSource.isNone then
        { sessions := eraseA sessionId mgr.sessions }
      else mgr

/-- SessionManager.setAudioSource, minus the `saveState()` call (modelled
separately): bind the source and reset the playback state. -/
def setAudioSource (mgr : SessionMgr) (sessionId : String) (a : AudioSource)
    (now : ℤ) : SessionMgr :=
  match lookupA sessionId mgr.sessions with
  | none => mgr
  | some session =>
      let session2 :=
        { session with
            audioSource := some a
            playbackState := { isPlaying := false, currentTime := 0, lastSyncTimestamp := now } }
      { sessions := setA sessionId session2 mgr.sessions }

/-- A partial update of the playback state (`Partial<PlaybackState>`). -/
structure PlaybackPatch where
  isPlaying : Option Bool
  currentTime : Option ℚ
deriving DecidableEq

/-- SessionManager.updatePlaybackState: spread the patch over the old
state and always set `lastSyncTimestamp` to `Date.now()`.  (The handlers
also put a `lastSyncTimestamp` into the patch; the spread order makes the
fresh `Date.now()` win, so the patch type only carries the other fields.) -/
def updatePlaybackState (mgr : SessionMgr) (sessionId : String)
    (patch : PlaybackPatch) (now : ℤ) : SessionMgr :=
  match lookupA sessionId mgr.sessions with
  | none => mgr
  | some session =>
      let ps := session.playbackState
      let session2 :=
        { session with
            playbackState :=
              { isPlaying := patch.isPlaying.getD ps.isPlaying
                currentTime := patch.currentTime.getD ps.currentTime
                lastSyncTimestamp := now } }
      { sessions := setA sessionId session2 mgr.sessions }

/-- SessionManager.setClientReady. -/
def setClientReady (mgr : SessionMgr) (sessionId clientId : String) (ready : Bool) :
    SessionMgr :=
  match lookupA sessionId mgr.sessions with
  | none => mgr
  | some session =>
      let session2 :=
        { session with
            clients := session.clients.map
              (fun c => if c.id = clientId then { c with isReady := ready } else c) }
      { sessions := setA sessionId session2 mgr.sessions }

/-! ### Persistence (SessionManager.loadState / saveState) -/

/-- The `PersistedSession` shape written to sessions.json. -/
structure PersistedSession where
  id : String
  createdAt : ℤ
  audioSource : Option AudioSource
deriving DecidableEq

/-- The `PersistedState` document. -/
structure PersistedState where
  sessions : List (String × PersistedSession)
deriving DecidableEq

/-- One iteration of the saveState merge loop. -/
def saveStateStep (acc : List (String × PersistedSession)) (e : String × Session) :
    List (String × PersistedSession) :=
  match e.2.audioSource with
  | some _ => setA e.1 { id := e.2.id, createdAt := e.2.createdAt, audioSource := e.2.audioSource } acc
  | none => acc

/-- SessionManager.saveState: start from the document already on disk and
overwrite one entry per in-memory session that has an audio source. -/
def saveState (mgr : SessionMgr) (disk : PersistedState) : PersistedState :=
  { sessions := mgr.sessions.foldl saveStateStep disk.sessions }

/-- One iteration of the loadState restore loop: sessions whose persisted
`audioSource` is non-null are restored with a reset playback state and an
empty client map. -/
def loadStateStep (now : ℤ) (acc : List (String × Session))
    (e : String × PersistedSession) : List (String × Session) :=
  match e.2.audioSource with
  | some _ =>
      setA e.1
        { id := e.2.id
          createdAt := e.2.createdAt
          audioSource := e.2.audioSource
          playbackState := { isPlaying := false, currentTime := 0, lastSyncTimestamp := now }
          clients := [] } acc
  | none => acc

/-- SessionManager.loadState, run at construction time against the
document found on disk. -/
def loadState (disk : PersistedState) (now : ℤ) : SessionMgr :=
  { sessions := disk.sessions.foldl (loadStateStep now) [] }

/-- SessionManager.setClientLatency. -/
def setClientLatency (mgr : SessionMgr) (sessionId clientId : String) (latency : ℚ) :
    SessionMgr :=
  match lookupA sessionId mgr.sessions with
  | none => mgr
  | some session =>
      let session2 :=
        { session with
            clients := session.clients.map
              (fun c => if c.id = clientId then { c with latency := latency } else c) }
      { sessions := setA sessionId session2 mgr.sessions }

/-! ## extractTrackId (handlers.ts) -/

/-- Attempt of the regex `\/audio\/([^/]+)\//` at the head of the
character list: the literal `/audio/`, then a nonempty greedy run of
non-slash characters, then a slash (a maximal run not followed by a slash
admits no backtracking, since every shorter nonempty prefix of the run is
followed by a non-slash character). -/
def tryAudioId (cs : List Char) : Option (List Char) :=
  if cs.take 7 = '/' :: 'a' :: 'u' :: 'd' :: 'i' :: 'o' :: '/' :: [] then
    let rest := cs.drop 7
    let cap := rest.takeWhile (fun c => c ≠ '/')
    if cap.isEmpty then none
    else if (rest.dropWhile (fun c => c ≠ '/')).isEmpty then none
    else some cap
  else none

/-- Leftmost match of the regex: try every start position left to right. -/
def extractTrackIdL : List Char → Option (List Char)
  | [] => none
  | c :: rest =>
      match tryAudioId (c :: rest) with
      | some t => some t
      | none => extractTrackIdL rest

/-- handlers.ts extractTrackId: the first capture of `\/audio\/([^/]+)\//`
on the file path, or the empty string when there is no match. -/
def extractTrackId (filePath : String) : String :=
  match extractTrackIdL filePath.toList with
  | some t => String.mk t
  | none => ""

/-! ## WebSocket handlers (src/websocket/handlers.ts) -/

/-- The payload of a `play` envelope. -/
structure PlayMsg where
  startTime : ℚ
  serverTimestamp : ℚ
deriving DecidableEq

/-- The payload of an `audio_ready` envelope. -/
structure AudioReadyMsg where
  audioUrl : String
  duration : ℚ
  title : String
  trackId : String
deriving DecidableEq

/-- handlers.ts getAudioUrlForChannel: left and right get their channel
artifact, every other channel string falls to the stereo artifact; a
session without audioSource yields the empty string. -/
def getAudioUrlForChannel (session : Session) (channel : String) : String :=
  match session.audioSource with
  | none => ""
  | some a =>
      if channel = "left" then a.files.left
      else if channel = "right" then a.files.right
      else a.files.stereo

/-- The `play_request` handler: look the session up; do nothing without a
bound audioSource; otherwise capture `serverTimestamp = Date.now()`, set
`scheduledTime` 500 ms later, merge `isPlaying = true` into the playback
state (bumping `lastSyncTimestamp`), and send each open-socket client a
`play` with the session's `currentTime` and `scheduledTime - latency/2`.
`Date.now()` is modelled by the single parameter `now` (the handler reads
it twice in the same tick).  The loop reads `currentTime` from the session
object after the update, whose patch leaves `currentTime` unchanged, so
the read below uses the captured session. -/
def handlePlayRequest (mgr : SessionMgr) (sessionId : String) (now : ℤ) :
    SessionMgr × List (String × PlayMsg) :=
  match lookupA sessionId mgr.sessions with
  | none => (mgr, [])
  | some session =>
      match session.audioSource with
      | none => (mgr, [])
      | some _ =>
          let scheduledTime : ℚ := (now : ℚ) + 500
          let mgr2 := updatePlaybackState mgr sessionId
            { isPlaying := some true, currentTime := none } now
          let msgs := (session.clients.filter (fun c => c.wsOpen)).map
            (fun c =>
              (c.id,
               { startTime := session.playbackState.currentTime
                 serverTimestamp := scheduledTime - c.latency / 2 : PlayMsg }))
          (mgr2, msgs)

/-- The tail of the `load_track` (and `submit_link`) handler once a track
is available: `setAudioSource` (which persists), then set every client's
`isReady` to false.  The per-client `audio_ready` envelopes it also sends
are modelled by `buildJoinAudioReady` and `getAudioUrlForChannel`. -/
def handleTrackBind (mgr : SessionMgr) (disk : PersistedState) (sessionId : String)
    (src : AudioSource) (now : ℤ) : SessionMgr × PersistedState :=
  let mgr2 := setAudioSource mgr sessionId src now
  let disk2 := saveState mgr2 disk
  match lookupA sessionId mgr2.sessions with
  | none => (mgr2, disk2)
  | some session =>
      let session2 :=
        { session with clients := session.clients.map (fun c => { c with isReady := false }) }
      ({ sessions := setA sessionId session2 mgr2.sessions }, disk2)

/-- The `audio_ready` envelope the `join_session` handler sends to a fresh
joiner when the session has a bound audioSource (none is sent otherwise). -/
def buildJoinAudioReady (session : Session) (client : ClientInfo) :
    Option AudioReadyMsg :=
  match session.audioSource with
  | none => none
  | some a =>
      some
        { audioUrl := getAudioUrlForChannel session client.assignedChannel.str
          duration := a.duration
          title := a.title
          trackId := extractTrackId a.files.stereo }

/-! ## submit_link and the ingestion-concurrency model (handlers.ts) -/

/-- `isYouTubeUrl`, applied to the hostname produced by `new URL(url)`
(`none` when the parser throws): the four accepted hostnames. -/
def isYouTubeUrl (parsedHostname : Option String) : Bool :=
  match parsedHostname with
  | none => false
  | some h =>
      h = "youtube.com" || h = "www.youtube.com" || h = "youtu.be" ||
        h = "m.youtube.com"

/-- Messages emitted by the synchronous prefix of the submit_link handler. -/
inductive SubmitOut where
  | errorTo (clientId : String) (message : String)
  | broadcastLoading (sessionId : String) (url : String)
deriving DecidableEq

/-- Server-side state relevant to ingestion concurrency: the session
store, the persisted document, and the multiset of `processYouTubeUrl`
promises currently pending (one entry per awaited ingestion, recording
the submitting session and the url). -/
structure ServerWorld where
  mgr : SessionMgr
  disk : PersistedState
  inflight : List (String × String)
deriving DecidableEq

/-- The synchronous prefix of the `submit_link` handler, up to the point
where `await audioProcessor.processYouTubeUrl(url)` suspends: an invalid
URL is answered with a targeted error envelope; a valid one causes an
`audio_loading` broadcast to the session and starts an ingestion
(appending a pending promise) unconditionally - the handler consults no
in-flight bookkeeping. -/
def handleSubmitLink (w : ServerWorld) (senderId sessionId url : String)
    (parsedHostname : Option String) : ServerWorld × List SubmitOut :=
  if isYouTubeUrl parsedHostname then
    ({ w with inflight := w.inflight ++ [(sessionId, url)] },
     [.broadcastLoading sessionId url])
  else
    (w, [.errorTo senderId "Only YouTube URLs are supported"])

/-! ## Session lifecycle with sweep timers (C7 operational model) -/

/-- A world pairing the session store with the armed 60 s cleanup timers
(session id, absolute fire time). -/
structure SweepWorld where
  mgr : SessionMgr
  sweeps : List (String × ℤ)
deriving DecidableEq

/-- Server events touching the session store.  `sweepFire` is the elapse
of an armed timer (it only does something when that timer is armed). -/
inductive SvEvent where
  | join (sessionId clientId : String) (now : ℤ)
  | leave (sessionId clientId : String) (now : ℤ)
  | bindTrack (sessionId : String) (src : AudioSource) (now : ℤ)
  | playReq (sessionId : String) (now : ℤ)
  | pauseReq (sessionId : String) (now : ℤ)
  | seekReq (sessionId : String) (target : ℚ) (now : ℤ)
  | readyMark (sessionId clientId : String)
  | latencyMark (sessionId clientId : String) (latency : ℚ)
  | sweepFire (sessionId : String) (fireAt : ℤ)

/-- One server step, with removeClient's `setTimeout` made explicit:
leaving arms a timer for `now + 60000` exactly when removeClient
scheduled one, and `sweepFire` runs the timeout body (delete iff still
empty and still trackless) and disarms the timer. -/
def svStep (w : SweepWorld) : SvEvent → SweepWorld
  | .join sid cid now => { w with mgr := (addClient w.mgr sid cid now).1 }
  | .leave sid cid now =>
      let r := removeClient w.mgr sid cid
      { mgr := r.1
        sweeps := if r.2 then w.sweeps ++ [(sid, now + 60000)] else w.sweeps }
  | .bindTrack sid src now => { w with mgr := setAudioSource w.mgr sid src now }
  | .playReq sid now => { w with mgr := (handlePlayRequest w.mgr sid now).1 }
  | .pauseReq sid now =>
      { w with mgr := updatePlaybackState w.mgr sid { isPlaying := some false, currentTime := none } now }
  | .seekReq sid t now =>
      { w with mgr := updatePlaybackState w.mgr sid { isPlaying := none, currentTime := some t } now }
  | .readyMark sid cid => { w with mgr := setClientReady w.mgr sid cid true }
  | .latencyMark sid cid l => { w with mgr := setClientLatency w.mgr sid cid l }
  | .sweepFire sid fireAt =>
      if (sid, fireAt) ∈ w.sweeps then
        { mgr := sweepSession w.mgr sid, sweeps := w.sweeps.erase (sid, fireAt) }
      else w

/-- Run a list of events, oldest first. -/
def svRun (w : SweepWorld) (es : List SvEvent) : SweepWorld :=
  es.foldl svStep w

/-- The specification's variant of `leave` ("detach schedules a 60 s sweep"
without the tracklessness condition on scheduling): a timer is armed
whenever the departure leaves the session empty, even when a track is
bound. -/
def svStepSpec (w : SweepWorld) : SvEvent → SweepWorld
  | .leave sid cid now =>
      match lookupA sid w.mgr.sessions with
      | none => { w with mgr := (removeClient w.mgr sid cid).1 }
      | some session =>
          let session2 :=
            { session with clients := session.clients.filter (fun c => c.id ≠ cid) }
          { mgr := { sessions := setA sid session2 w.mgr.sessions }
            sweeps :=
              if session2.clients.isEmpty then w.sweeps ++ [(sid, now + 60000)]
              else w.sweeps }
  | e => svStep w e

/-- Run of the specification variant. -/
def svRunSpec (w : SweepWorld) (es : List SvEvent) : SweepWorld :=
  es.foldl svStepSpec w

/-- The empty initial world of a fresh process with no persisted state. -/
def initialWorld : SweepWorld := { mgr := { sessions := [] }, sweeps := [] }

/-- The session id has a session with a bound audio source. -/
def trackful (mgr : SessionMgr) (sid : String) : Prop :=
  ∃ s, lookupA sid mgr.sessions = some s ∧ s.audioSource.isSome

/-! ## Roster-only channel assignment (C6) -/

/-- A join or leave of the roster of one session. -/
inductive RosterOp where
  | join (clientId : String)
  | leave (clientId : String)
deriving DecidableEq

/-- The roster effect of addClient / removeClient on one session. -/
def rosterStep (cs : List ClientInfo) : RosterOp → List ClientInfo
  | .join cid =>
      cs ++ [{ id := cid, wsOpen := true, assignedChannel := assignChannel cs
               latency := 0, isReady := false }]
  | .leave cid => cs.filter (fun c => c.id ≠ cid)

/-- Roster reached from an empty session by a sequence of joins and leaves. -/
def rosterRun (ops : List RosterOp) : List ClientInfo :=
  ops.foldl rosterStep []

/-! ## Ingestion pipeline (src/services/AudioProcessor.ts, streaming mode) -/

/-- Observable events of one `processYouTubeUrl` call.  `sizePoll` is the
artifact-size poll the specification describes; it is part of the
observation vocabulary so its absence can be stated. -/
inductive IngestEvent where
  | mkdirTrackDir
  | probeTitle
  | probeStreamUrl
  | transcodeStart
  | transcodeExit (code : ℕ)
  | sizePoll (sizeLeft sizeRight : ℕ)
  | probeDuration
  | writeMetadata
  | returnReady
deriving DecidableEq

/-- The ordered effect trace of `processYouTubeUrl(url)` in streaming
mode, as a function of the transcoder's exit code: make the track
directory, probe title and stream URL (in parallel, both awaited), spawn
ffmpeg, `await` its exit; only on exit code 0 probe the duration, write
metadata.json and resolve the promise (which lets the submit_link handler
fan out `audio_ready`).  A non-zero exit rejects instead. -/
def processYouTubeUrlTrace (exitCode : ℕ) : List IngestEvent :=
  [.mkdirTrackDir, .probeTitle, .probeStreamUrl, .transcodeStart, .transcodeExit exitCode] ++
    (if exitCode = 0 then [.probeDuration, .writeMetadata, .returnReady] else [])

/-- Is the event a transcoder exit? -/
def isTranscodeExit : IngestEvent → Bool
  | .transcodeExit _ => true
  | _ => false

/-- Is the event a size poll? -/
def isSizePoll : IngestEvent → Bool
  | .sizePoll _ _ => true
  | _ => false

/-- The readiness signal (promise resolution) occurs strictly before the
transcoder's exit - what the specified progressive-ready barrier would
produce. -/
def readyBeforeTranscodeExit (t : List IngestEvent) : Bool :=
  match t.findIdx? (fun e => e = .returnReady), t.findIdx? isTranscodeExit with
  | some i, some j => decide (i < j)
  | _, _ => false

/-- The artifact file paths `processYouTubeUrl` returns for a track id
(streaming mode: no separate stereo file; left.mp3 doubles as stereo). -/
def processedFiles (id : String) : AudioFiles :=
  { stereo := "/audio/" ++ id ++ "/left.mp3"
    left := "/audio/" ++ id ++ "/left.mp3"
    right := "/audio/" ++ id ++ "/right.mp3" }

/-! ## Theorems -/

/-- C8: the client status machine realises exactly the specified
transition table over states ∅/loading/ready/playing/paused and events
LOAD/AUTO_READY/PLAY/PAUSE/ERROR (LOAD accepted everywhere to loading,
AUTO_READY only loading→ready, PLAY only ready/paused→playing, PAUSE only
playing→paused, ERROR only loading→∅); a refused event leaves the state
unchanged and returns false with no notification, and an accepted one
moves to the table's target, returns true and notifies the observers with
the new state and its human label. -/
theorem statusMachine_table :
    ∀ (s : Option StStatus) (e : StEvent),
      stTransitions s e = specTransitionTable s e ∧
      stSend s e =
        (match specTransitionTable s e with
         | none => (s, false, none)
         | some s2 => (s2, true, some (s2, stLabel s2))) := by
  decide

/-- C9: getAudioUrlForChannel returns the left artifact for channel
"left", the right artifact for "right", the stereo artifact for every
other channel string, and the empty string when the session has no
audioSource. -/
theorem audioUrl_for_channel :
    ∀ (s : Session) (ch : String),
      (s.audioSource = none → getAudioUrlForChannel s ch = "") ∧
      (∀ a : AudioSource, s.audioSource = some a →
        (ch = "left" → getAudioUrlForChannel s ch = a.files.left) ∧
        (ch = "right" → getAudioUrlForChannel s ch = a.files.right) ∧
        (ch ≠ "left" → ch ≠ "right" → getAudioUrlForChannel s ch = a.files.stereo)) := by
  intro s ch
  refine ⟨fun h => by simp [getAudioUrlForChannel, h], fun a ha => ⟨?_, ?_, ?_⟩⟩
  · intro h1
    subst h1
    simp [getAudioUrlForChannel, ha]
  · intro h1
    subst h1
    simp [getAudioUrlForChannel, ha]
  · intro h1 h2
    simp [getAudioUrlForChannel, ha, h1, h2]

/-- C9 witness: a bound session yields the stereo artifact for the
channel string "stereo" and for an unknown channel string, and a
trackless session yields the empty string. -/
theorem audioUrl_for_channel_witness :
    getAudioUrlForChannel
        { id := "s", createdAt := 0, audioSource := some
            { url := "u", title := "t", duration := 3
              files := { stereo := "st.mp3", left := "l.mp3", right := "r.mp3" } }
          playbackState := { isPlaying := false, currentTime := 0, lastSyncTimestamp := 0 }
          clients := [] } "stereo" = "st.mp3" ∧
    getAudioUrlForChannel
        { id := "s", createdAt := 0, audioSource := none
          playbackState := { isPlaying := false, currentTime := 0, lastSyncTimestamp := 0 }
          clients := [] } "left" = "" := by
  constructor
  · exact ((audioUrl_for_channel
        { id := "s", createdAt := 0, audioSource := some
            { url := "u", title := "t", duration := 3
              files := { stereo := "st.mp3", left := "l.mp3", right := "r.mp3" } }
          playbackState := { isPlaying := false, currentTime := 0, lastSyncTimestamp := 0 }
          clients := [] } "stereo").2
        { url := "u", title := "t", duration := 3
          files := { stereo := "st.mp3", left := "l.mp3", right := "r.mp3" } }
        rfl).2.2 (by decide) (by decide)
  · exact (audioUrl_for_channel
        { id := "s", createdAt := 0, audioSource := none
          playbackState := { isPlaying := false, currentTime := 0, lastSyncTimestamp := 0 }
          clients := [] } "left").1 rfl

/-- C2 counterexample: in the streaming `processYouTubeUrl` there is no
progressive-ready barrier: the successful run contains no size poll at
all, and the promise resolves (position of `returnReady`) strictly after
the transcoder's exit, not before it as the claim states. -/
theorem progressive_ready_counterexample :
    readyBeforeTranscodeExit (processYouTubeUrlTrace 0) = false ∧
    (processYouTubeUrlTrace 0).filter isSizePoll = [] ∧
    IngestEvent.returnReady ∈ processYouTubeUrlTrace 0 ∧
    IngestEvent.transcodeExit 0 ∈ processYouTubeUrlTrace 0 := by
  decide

/-- C2 (amended): processYouTubeUrl performs no artifact-size polling;
it awaits the transcoder to completion, and only on exit code 0 does it
probe the duration, write metadata and resolve the promise (which is what
triggers the audio_ready fan-out) - the transcoder exit strictly precedes
the ready signal; a non-zero exit produces no ready signal at all. -/
theorem processYouTubeUrl_awaits_transcoder :
    ∀ code : ℕ,
      (processYouTubeUrlTrace code).filter isSizePoll = [] ∧
      (code = 0 →
        processYouTubeUrlTrace code =
          [.mkdirTrackDir, .probeTitle, .probeStreamUrl, .transcodeStart,
           .transcodeExit 0, .probeDuration, .writeMetadata, .returnReady] ∧
        (processYouTubeUrlTrace code).findIdx? isTranscodeExit = some 4 ∧
        (processYouTubeUrlTrace code).findIdx? (fun e => e = .returnReady) = some 7 ∧
        readyBeforeTranscodeExit (processYouTubeUrlTrace code) = false) ∧
      (code ≠ 0 → IngestEvent.returnReady ∉ processYouTubeUrlTrace code) := by
  intro code
  by_cases h : code = 0
  · subst h
    refine ⟨by decide, fun _ => by decide, fun hc => absurd rfl hc⟩
  · refine ⟨?_, fun hc => absurd hc h, ?_⟩
    · simp [processYouTubeUrlTrace, h, isSizePoll]
    · intro _
      simp [processYouTubeUrlTrace, h]

/-- C2 witness: the amended statement instantiated at exit codes 0 and 1. -/
theorem processYouTubeUrl_awaits_transcoder_witness :
    (processYouTubeUrlTrace 0).findIdx? isTranscodeExit = some 4 ∧
    IngestEvent.returnReady ∉ processYouTubeUrlTrace 1 :=
  ⟨(((processYouTubeUrl_awaits_transcoder 0).2.1 rfl).2.1),
   ((processYouTubeUrl_awaits_transcoder 1).2.2 (by decide))⟩

/-- C3 counterexample: with an ingestion already in flight for session
"s", a second valid submit_link for "s" is not refused: it broadcasts
audio_loading and starts a second ingestion (two pending promises), and no
error envelope - in particular no Busy one - is produced. -/
theorem submitLink_busy_counterexample :
    (handleSubmitLink
        { mgr := { sessions := [] }, disk := { sessions := [] }
          inflight := [("s", "https://www.youtube.com/watch?v=a")] }
        "clientA" "s" "https://www.youtube.com/watch?v=b" (some "www.youtube.com")).1.inflight =
      [("s", "https://www.youtube.com/watch?v=a"), ("s", "https://www.youtube.com/watch?v=b")] ∧
    (handleSubmitLink
        { mgr := { sessions := [] }, disk := { sessions := [] }
          inflight := [("s", "https://www.youtube.com/watch?v=a")] }
        "clientA" "s" "https://www.youtube.com/watch?v=b" (some "www.youtube.com")).2 =
      [.broadcastLoading "s" "https://www.youtube.com/watch?v=b"] := by
  decide

/-- C3 (amended): the submit_link handler enforces no per-session
ingestion mutual exclusion: its behaviour is independent of the set of
in-flight ingestions - a valid URL always broadcasts audio_loading and
starts a new ingestion, an invalid one is answered with the URL error,
and no Busy error exists. -/
theorem submitLink_ignores_inflight :
    ∀ (mgr : SessionMgr) (disk : PersistedState) (fl1 fl2 : List (String × String))
      (sender sid url : String) (host : Option String),
      (isYouTubeUrl host = true →
        handleSubmitLink { mgr := mgr, disk := disk, inflight := fl1 } sender sid url host =
          ({ mgr := mgr, disk := disk, inflight := fl1 ++ [(sid, url)] },
           [.broadcastLoading sid url])) ∧
      (isYouTubeUrl host = false →
        handleSubmitLink { mgr := mgr, disk := disk, inflight := fl1 } sender sid url host =
          ({ mgr := mgr, disk := disk, inflight := fl1 },
           [.errorTo sender "Only YouTube URLs are supported"])) ∧
      (handleSubmitLink { mgr := mgr, disk := disk, inflight := fl1 } sender sid url host).2 =
        (handleSubmitLink { mgr := mgr, disk := disk, inflight := fl2 } sender sid url host).2 := by
  intro mgr disk fl1 fl2 sender sid url host
  cases h : isYouTubeUrl host <;>
    simp [handleSubmitLink, h]

/-- C3 witness: the amended statement at a concrete valid submission. -/
theorem submitLink_ignores_inflight_witness :
    handleSubmitLink
        { mgr := { sessions := [] }, disk := { sessions := [] }, inflight := [] }
        "c" "s" "https://youtu.be/x" (some "youtu.be") =
      ({ mgr := { sessions := [] }, disk := { sessions := [] }, inflight := [("s", "https://youtu.be/x")] },
       [.broadcastLoading "s" "https://youtu.be/x"]) := by
  have h := (submitLink_ignores_inflight { sessions := [] } { sessions := [] } [] []
    "c" "s" "https://youtu.be/x" (some "youtu.be")).1 (by decide)
  simpa using h

/-- C6 counterexample: four joins then the departure of the two
right-channel clients leave a reachable roster of size 2 whose left
population exceeds the right one by 2, outside the claimed set. -/
theorem channel_balance_counterexample :
    (rosterRun [.join "A", .join "B", .join "C", .join "D", .leave "B", .leave "D"]).length = 2 ∧
    ¬ ((countChannel (rosterRun [.join "A", .join "B", .join "C", .join "D", .leave "B", .leave "D"]) .left : ℤ) -
        (countChannel (rosterRun [.join "A", .join "B", .join "C", .join "D", .leave "B", .leave "D"]) .right : ℤ) = -1 ∨
       (countChannel (rosterRun [.join "A", .join "B", .join "C", .join "D", .leave "B", .leave "D"]) .left : ℤ) -
        (countChannel (rosterRun [.join "A", .join "B", .join "C", .join "D", .leave "B", .leave "D"]) .right : ℤ) = 0 ∨
       (countChannel (rosterRun [.join "A", .join "B", .join "C", .join "D", .leave "B", .leave "D"]) .left : ℤ) -
        (countChannel (rosterRun [.join "A", .join "B", .join "C", .join "D", .leave "B", .leave "D"]) .right : ℤ) = 1) := by
  decide

theorem countChannel_append (cs : List ClientInfo) (c : ClientInfo) (ch : Channel) :
    countChannel (cs ++ [c]) ch =
      countChannel cs ch + (if c.assignedChannel = ch then 1 else 0) := by
  simp only [countChannel, List.filter_append]
  split <;> simp_all [List.filter_cons]

theorem rosterRun_concat (ops : List RosterOp) (op : RosterOp) :
    rosterRun (ops ++ [op]) = rosterStep (rosterRun ops) op := by
  simp [rosterRun, List.foldl_append]

theorem join_balance (cids : List String) :
    countChannel (rosterRun (cids.map RosterOp.join)) .left =
      countChannel (rosterRun (cids.map RosterOp.join)) .right ∨
    countChannel (rosterRun (cids.map RosterOp.join)) .left =
      countChannel (rosterRun (cids.map RosterOp.join)) .right + 1 := by
  induction cids using List.reverseRecOn with
  | nil => exact Or.inl rfl
  | append_singleton l a ih =>
      rw [List.map_append, List.map_singleton, rosterRun_concat]
      have hL := countChannel_append (rosterRun (l.map RosterOp.join))
        { id := a, wsOpen := true, assignedChannel := assignChannel (rosterRun (l.map RosterOp.join))
          latency := 0, isReady := false } Channel.left
      have hR := countChannel_append (rosterRun (l.map RosterOp.join))
        { id := a, wsOpen := true, assignedChannel := assignChannel (rosterRun (l.map RosterOp.join))
          latency := 0, isReady := false } Channel.right
      simp only [rosterStep]
      by_cases h1 : countChannel (rosterRun (l.map RosterOp.join)) Channel.left = 0
      · have hA : assignChannel (rosterRun (l.map RosterOp.join)) = Channel.left := by
          simp [assignChannel, h1]
        rw [hA] at hL hR ⊢
        rw [hL, hR]
        simp
        omega
      · by_cases h2 : countChannel (rosterRun (l.map RosterOp.join)) Channel.right = 0
        · have hA : assignChannel (rosterRun (l.map RosterOp.join)) = Channel.right := by
            simp [assignChannel, h1, h2]
          rw [hA] at hL hR ⊢
          rw [hL, hR]
          simp
          omega
        · by_cases h3 : countChannel (rosterRun (l.map RosterOp.join)) Channel.left ≤
              countChannel (rosterRun (l.map RosterOp.join)) Channel.right
          · have hA : assignChannel (rosterRun (l.map RosterOp.join)) = Channel.left := by
              simp [assignChannel, h1, h2, h3]
            rw [hA] at hL hR ⊢
            rw [hL, hR]
            simp
            omega
          · have hA : assignChannel (rosterRun (l.map RosterOp.join)) = Channel.right := by
              simp [assignChannel, h1, h2, h3]
            rw [hA] at hL hR ⊢
            rw [hL, hR]
            simp
            omega

/-- C6 (amended): the assignment function is exactly the policy "the
less-populated of left and right, ties to left" (hence first client left,
second right); for rosters reached from an empty session by joins only,
any roster of size at least 2 has left and right populations differing by
at most one (leaves can unbalance the roster, see the counterexample). -/
theorem channel_assignment_policy_balance :
    (∀ cs : List ClientInfo, assignChannel cs = specAssignChannel cs) ∧
    (∀ cids : List String, 2 ≤ cids.length →
      ((countChannel (rosterRun (cids.map RosterOp.join)) .left : ℤ) -
          (countChannel (rosterRun (cids.map RosterOp.join)) .right : ℤ) = -1 ∨
        (countChannel (rosterRun (cids.map RosterOp.join)) .left : ℤ) -
          (countChannel (rosterRun (cids.map RosterOp.join)) .right : ℤ) = 0 ∨
        (countChannel (rosterRun (cids.map RosterOp.join)) .left : ℤ) -
          (countChannel (rosterRun (cids.map RosterOp.join)) .right : ℤ) = 1)) := by
  constructor
  · intro cs
    simp only [assignChannel, specAssignChannel]
    by_cases h1 : countChannel cs .left = 0 <;>
      by_cases h2 : countChannel cs .right = 0 <;>
        by_cases h3 : countChannel cs .left ≤ countChannel cs .right <;>
          simp [h1, h2, h3]
  · intro cids _
    rcases join_balance cids with h | h
    · right; left; omega
    · right; right; omega

/-- C6 witness: the amended statement at the two-client roster A, B. -/
theorem channel_assignment_policy_balance_witness :
    assignChannel [] = specAssignChannel [] ∧
    ((countChannel (rosterRun (["A", "B"].map RosterOp.join)) .left : ℤ) -
        (countChannel (rosterRun (["A", "B"].map RosterOp.join)) .right : ℤ) = -1 ∨
      (countChannel (rosterRun (["A", "B"].map RosterOp.join)) .left : ℤ) -
        (countChannel (rosterRun (["A", "B"].map RosterOp.join)) .right : ℤ) = 0 ∨
      (countChannel (rosterRun (["A", "B"].map RosterOp.join)) .left : ℤ) -
        (countChannel (rosterRun (["A", "B"].map RosterOp.join)) .right : ℤ) = 1) :=
  ⟨channel_assignment_policy_balance.1 [],
   channel_assignment_policy_balance.2 ["A", "B"] (by decide)⟩

theorem insertSample_map_offset (s : Sample) (l : List Sample) :
    (insertSample s l).map Sample.offset = insertRat s.offset (l.map Sample.offset) := by
  induction l with
  | nil => rfl
  | cons t ts ih =>
      by_cases h : s.offset ≤ t.offset
      · simp [insertSample, insertRat, h]
      · simp [insertSample, insertRat, h, ih]

theorem sortSamples_map_offset (l : List Sample) :
    (sortSamples l).map Sample.offset = sortRat (l.map Sample.offset) := by
  induction l with
  | nil => rfl
  | cons s rest ih => simp [sortSamples, sortRat, insertSample_map_offset, ih]

theorem insertSample_length (s : Sample) (l : List Sample) :
    (insertSample s l).length = l.length + 1 := by
  induction l with
  | nil => rfl
  | cons t ts ih =>
      by_cases h : s.offset ≤ t.offset <;> simp [insertSample, h, ih]

theorem sortSamples_length (l : List Sample) :
    (sortSamples l).length = l.length := by
  induction l with
  | nil => rfl
  | cons s rest ih => simp [sortSamples, insertSample_length, ih]

theorem getD_offset (l : List Sample) (i : ℕ) (d : Sample) :
    (l.getD i d).offset = (l.map Sample.offset).getD i d.offset := by
  induction l generalizing i with
  | nil => simp [List.getD]
  | cons a l ih => cases i <;> simp [ih]

/-- C4: each pong appends a latency/offset sample computed from
`rtt = now - clientTimestamp`, keeps only the 5 most recent samples, and
sets the authoritative clockOffset to the median (sorted middle) of the
stored offsets; serverTimeToLocal subtracts the offset and
localTimeToServer adds it; and the concrete offset stream
10, 10, 1000, 10, 10 ms yields clockOffset 10. -/
theorem syncManager_median_clock_offset :
    (∀ (st : SyncState) (sTs cTs now : ℚ),
      st.latencySamples.length ≤ 5 →
      ((handlePong st sTs cTs now).1.latencySamples =
          (st.latencySamples ++ [({ latency := (now - cTs) / 2
                                    offset := sTs - cTs - (now - cTs) / 2 } : Sample)]).drop
            (st.latencySamples.length + 1 - 5) ∧
        (handlePong st sTs cTs now).1.latencySamples.length ≤ 5 ∧
        (handlePong st sTs cTs now).1.clockOffset =
          median ((handlePong st sTs cTs now).1.latencySamples.map Sample.offset) ∧
        (∀ t : ℚ,
          serverTimeToLocal (handlePong st sTs cTs now).1 t =
            t - (handlePong st sTs cTs now).1.clockOffset ∧
          localTimeToServer (handlePong st sTs cTs now).1 t =
            t + (handlePong st sTs cTs now).1.clockOffset))) ∧
    (runPongs SyncState.init
        [(10, 0, 0), (10, 0, 0), (1000, 0, 0), (10, 0, 0), (10, 0, 0)]).clockOffset = 10 := by
  constructor
  · intro st sTs cTs now hlen
    refine ⟨?_, ?_, ?_, fun t => ⟨rfl, rfl⟩⟩
    · by_cases h5 : st.latencySamples.length = 5
      · have h1 : st.latencySamples.length + 1 - 5 = 1 := by omega
        rw [h1]
        simp only [handlePong]
        rw [if_pos (by simp [h5])]
      · have h0 : st.latencySamples.length + 1 - 5 = 0 := by omega
        rw [h0, List.drop_zero]
        simp only [handlePong]
        rw [if_neg (by simp; omega)]
    · simp only [handlePong]
      split
      · rename_i h
        simp only [List.length_drop, List.length_append, List.length_singleton] at h ⊢
        omega
      · rename_i h
        simp only [List.length_append, List.length_singleton] at h ⊢
        omega
    · simp only [handlePong]
      rw [getD_offset, sortSamples_map_offset, sortSamples_length]
      simp [median, List.length_map]
  · norm_num [runPongs, handlePong, sortSamples, insertSample, List.getD]

/-- C4 witness: the general statement at the first pong of a fresh
SyncManager. -/
theorem syncManager_median_clock_offset_witness :
    (handlePong SyncState.init 10 0 0).1.clockOffset =
      median ((handlePong SyncState.init 10 0 0).1.latencySamples.map Sample.offset) :=
  (syncManager_median_clock_offset.1 SyncState.init 10 0 0 (by decide)).2.2.1

theorem takeWhile_append_of_all (p : Char → Bool) (l1 l2 : List Char)
    (h : ∀ c ∈ l1, p c = true) :
    (l1 ++ l2).takeWhile p = l1 ++ l2.takeWhile p := by
  induction l1 with
  | nil => simp
  | cons a l ih =>
      have ha : p a = true := h a (List.mem_cons_self a l)
      simp [List.takeWhile_cons, ha, ih (fun c hc => h c (List.mem_cons_of_mem a hc))]

theorem dropWhile_append_of_all (p : Char → Bool) (l1 l2 : List Char)
    (h : ∀ c ∈ l1, p c = true) :
    (l1 ++ l2).dropWhile p = l2.dropWhile p := by
  induction l1 with
  | nil => simp
  | cons a l ih =>
      have ha : p a = true := h a (List.mem_cons_self a l)
      simp [List.dropWhile_cons, ha, ih (fun c hc => h c (List.mem_cons_of_mem a hc))]

theorem tryAudioId_audio_path (i file : List Char) (hne : i ≠ []) (h : '/' ∉ i) :
    tryAudioId ('/' :: 'a' :: 'u' :: 'd' :: 'i' :: 'o' :: '/' :: (i ++ '/' :: file)) =
      some i := by
  have hall : ∀ c ∈ i, (fun c => decide (c ≠ '/')) c = true := by
    intro c hc
    simp only [decide_eq_true_eq]
    intro e
    exact h (e ▸ hc)
  have ht : ('/' :: 'a' :: 'u' :: 'd' :: 'i' :: 'o' :: '/' :: (i ++ '/' :: file)).take 7 =
      '/' :: 'a' :: 'u' :: 'd' :: 'i' :: 'o' :: '/' :: [] := rfl
  have hd : ('/' :: 'a' :: 'u' :: 'd' :: 'i' :: 'o' :: '/' :: (i ++ '/' :: file)).drop 7 =
      i ++ '/' :: file := rfl
  have hcap : (i ++ '/' :: file).takeWhile (fun c => c ≠ '/') = i := by
    rw [takeWhile_append_of_all _ _ _ hall]
    simp [List.takeWhile_cons]
  have hdrop : (i ++ '/' :: file).dropWhile (fun c => c ≠ '/') = '/' :: file := by
    rw [dropWhile_append_of_all _ _ _ hall]
    simp [List.dropWhile_cons]
  unfold tryAudioId
  rw [ht, if_pos rfl, hd]
  simp only [hcap, hdrop]
  simp [List.isEmpty_iff, hne]

theorem extractTrackIdL_audio_path (i file : List Char) (hne : i ≠ []) (h : '/' ∉ i) :
    extractTrackIdL ('/' :: 'a' :: 'u' :: 'd' :: 'i' :: 'o' :: '/' :: (i ++ '/' :: file)) =
      some i := by
  simp only [extractTrackIdL, tryAudioId_audio_path i file hne h]

/-- C10: for every non-empty track id containing no slash (which holds
for all nanoid ids), extractTrackId inverts artifact-path construction:
on "/audio/" followed by the id, a slash and any file name it returns the
id; in particular it returns the id on each of the three artifact paths
processYouTubeUrl builds, so the trackId field of the audio_ready the
join handler sends for a session bound to those files equals the id of
the bound track. -/
theorem extractTrackId_round_trip :
    ∀ (i fileName : String), i ≠ "" → '/' ∉ i.toList →
      extractTrackId ("/audio/" ++ i ++ "/" ++ fileName) = i ∧
      extractTrackId (processedFiles i).stereo = i ∧
      extractTrackId (processedFiles i).left = i ∧
      extractTrackId (processedFiles i).right = i ∧
      (∀ (s : Session) (c : ClientInfo) (a : AudioSource),
        s.audioSource = some a → a.files = processedFiles i →
        ∃ m, buildJoinAudioReady s c = some m ∧ m.trackId = i) := by
  intro i fileName hne hs
  have hnel : i.toList ≠ [] := by
    intro hl
    apply hne
    cases i
    simp_all
  have hstereo : extractTrackId (processedFiles i).stereo = i := by
    have h1 : ("/audio/" ++ i ++ "/left.mp3").toList =
        '/' :: 'a' :: 'u' :: 'd' :: 'i' :: 'o' :: '/' ::
          (i.toList ++ '/' :: "left.mp3".toList) := by
      show ("/audio/".toList ++ i.toList ++ "/left.mp3".toList : List Char) = _
      simp
    show extractTrackId ("/audio/" ++ i ++ "/left.mp3") = i
    unfold extractTrackId
    rw [h1, extractTrackIdL_audio_path _ _ hnel hs]
    cases i
    rfl
  refine ⟨?_, hstereo, hstereo, ?_, ?_⟩
  · have h1 : ("/audio/" ++ i ++ "/" ++ fileName).toList =
        '/' :: 'a' :: 'u' :: 'd' :: 'i' :: 'o' :: '/' ::
          (i.toList ++ '/' :: fileName.toList) := by
      show ("/audio/".toList ++ i.toList ++ "/".toList ++ fileName.toList : List Char) = _
      simp
    unfold extractTrackId
    rw [h1, extractTrackIdL_audio_path _ _ hnel hs]
    cases i
    rfl
  · have h1 : ("/audio/" ++ i ++ "/right.mp3").toList =
        '/' :: 'a' :: 'u' :: 'd' :: 'i' :: 'o' :: '/' ::
          (i.toList ++ '/' :: "right.mp3".toList) := by
      show ("/audio/".toList ++ i.toList ++ "/right.mp3".toList : List Char) = _
      simp
    show extractTrackId ("/audio/" ++ i ++ "/right.mp3") = i
    unfold extractTrackId
    rw [h1, extractTrackIdL_audio_path _ _ hnel hs]
    cases i
    rfl
  · intro s c a ha hf
    refine ⟨{ audioUrl := getAudioUrlForChannel s c.assignedChannel.str
              duration := a.duration
              title := a.title
              trackId := extractTrackId a.files.stereo }, ?_, ?_⟩
    · unfold buildJoinAudioReady
      rw [ha]
    · show extractTrackId a.files.stereo = i
      rw [hf]
      exact hstereo

/-- C10 witness: the round trip at a concrete 10-character id. -/
theorem extractTrackId_round_trip_witness :
    extractTrackId ("/audio/" ++ "5T9MKlxMG0" ++ "/" ++ "x.mp3") = "5T9MKlxMG0" ∧
    extractTrackId (processedFiles "5T9MKlxMG0").stereo = "5T9MKlxMG0" := by
  have h := extractTrackId_round_trip "5T9MKlxMG0" "x.mp3" (by decide) (by decide)
  exact ⟨h.1, h.2.1⟩

theorem lookupA_setA_self {α : Type} (k : String) (v : α) (m : List (String × α)) :
    lookupA k (setA k v m) = some v := by
  induction m with
  | nil => simp [setA, lookupA]
  | cons e rest ih =>
      obtain ⟨k2, w⟩ := e
      by_cases h : k2 = k
      · simp [setA, lookupA, h]
      · simp [setA, lookupA, h, ih]

theorem lookupA_setA_ne {α : Type} (k k2 : String) (v : α) (m : List (String × α))
    (h : k2 ≠ k) : lookupA k (setA k2 v m) = lookupA k m := by
  induction m with
  | nil => simp [setA, lookupA, h]
  | cons e rest ih =>
      obtain ⟨k3, w⟩ := e
      by_cases h3 : k3 = k2
      · subst h3
        simp [setA, lookupA, h]
      · simp [setA, lookupA, h3, ih]

theorem lookup_setA_cases {α : Type} (k k2 : String) (v : α) (m : List (String × α)) :
    lookupA k (setA k2 v m) = if k2 = k then some v else lookupA k m := by
  by_cases h : k2 = k
  · subst h
    simp [lookupA_setA_self]
  · simp [h, lookupA_setA_ne _ _ _ _ h]

theorem lookupA_eraseA_self {α : Type} (k : String) (m : List (String × α)) :
    lookupA k (eraseA k m) = none := by
  induction m with
  | nil => rfl
  | cons e rest ih =>
      obtain ⟨k2, w⟩ := e
      simp only [eraseA, decide_not] at ih
      by_cases h : k2 = k
      · subst h
        simp [eraseA, List.filter_cons, ih]
      · simp [eraseA, List.filter_cons, h, lookupA, ih]

theorem lookupA_eraseA_ne {α : Type} (k k2 : String) (m : List (String × α))
    (h : k2 ≠ k) : lookupA k (eraseA k2 m) = lookupA k m := by
  induction m with
  | nil => rfl
  | cons e rest ih =>
      obtain ⟨k3, w⟩ := e
      simp only [eraseA, decide_not] at ih
      by_cases h3 : k3 = k2
      · subst h3
        have hk : k3 ≠ k := h
        simp [eraseA, List.filter_cons, lookupA, hk, ih]
      · simp [eraseA, List.filter_cons, h3, lookupA, ih]

/-- C1: on play_request for a session with a bound audio source, the
handler captures serverNow, schedules `serverNow + 500`, sets
`isPlaying = true` while bumping `lastSyncTimestamp` and leaving
`currentTime` unchanged, and sends every client of the session (the
requester included, its socket being open) a play message whose
`startTime` is the session's `currentTime` and whose `serverTimestamp`
is the shared target minus half that client's latency. -/
theorem playRequest_schedules_shared_start :
    ∀ (mgr : SessionMgr) (sid : String) (now : ℤ) (session : Session) (a : AudioSource),
      lookupA sid mgr.sessions = some session →
      session.audioSource = some a →
      (∀ c ∈ session.clients, c.wsOpen = true) →
      (handlePlayRequest mgr sid now).2 =
        session.clients.map (fun c =>
          (c.id, { startTime := session.playbackState.currentTime
                   serverTimestamp := ((now : ℚ) + 500) - c.latency / 2 : PlayMsg })) ∧
      lookupA sid (handlePlayRequest mgr sid now).1.sessions =
        some { session with
                 playbackState :=
                   { isPlaying := true
                     currentTime := session.playbackState.currentTime
                     lastSyncTimestamp := now } } := by
  intro mgr sid now session a hlook haud hopen
  constructor
  · simp only [handlePlayRequest, hlook, haud]
    rw [List.filter_eq_self.mpr (fun c hc => by simp [hopen c hc])]
  · simp only [handlePlayRequest, hlook, haud, updatePlaybackState]
    rw [lookupA_setA_self]
    rfl

/-- C1 witness: two open clients with latencies 20 ms and 120 ms, a
freshly bound track (currentTime 0) and serverNow = 1000 receive
serverTimestamps 1490 and 1440 with startTime 0, and the session is
marked playing. -/
theorem playRequest_schedules_shared_start_witness :
    (handlePlayRequest
        { sessions := [("s",
            { id := "s", createdAt := 0
              audioSource := some
                { url := "u", title := "t", duration := 300
                  files := { stereo := "s.mp3", left := "l.mp3", right := "r.mp3" } }
              playbackState := { isPlaying := false, currentTime := 0, lastSyncTimestamp := 0 }
              clients :=
                [{ id := "A", wsOpen := true, assignedChannel := .left
                   latency := 20, isReady := true },
                 { id := "B", wsOpen := true, assignedChannel := .right
                   latency := 120, isReady := true }] })] }
        "s" 1000).2 =
      [("A", { startTime := 0, serverTimestamp := 1490 }),
       ("B", { startTime := 0, serverTimestamp := 1440 })] := by
  have h := (playRequest_schedules_shared_start
    { sessions := [("s",
        { id := "s", createdAt := 0
          audioSource := some
            { url := "u", title := "t", duration := 300
              files := { stereo := "s.mp3", left := "l.mp3", right := "r.mp3" } }
          playbackState := { isPlaying := false, currentTime := 0, lastSyncTimestamp := 0 }
          clients :=
            [{ id := "A", wsOpen := true, assignedChannel := .left
               latency := 20, isReady := true },
             { id := "B", wsOpen := true, assignedChannel := .right
               latency := 120, isReady := true }] })] }
    "s" 1000
    { id := "s", createdAt := 0
      audioSource := some
        { url := "u", title := "t", duration := 300
          files := { stereo := "s.mp3", left := "l.mp3", right := "r.mp3" } }
      playbackState := { isPlaying := false, currentTime := 0, lastSyncTimestamp := 0 }
      clients :=
        [{ id := "A", wsOpen := true, assignedChannel := .left
           latency := 20, isReady := true },
         { id := "B", wsOpen := true, assignedChannel := .right
           latency := 120, isReady := true }] }
    { url := "u", title := "t", duration := 300
      files := { stereo := "s.mp3", left := "l.mp3", right := "r.mp3" } }
    (by simp [lookupA]) rfl (by intro c hc; fin_cases hc <;> rfl)).1
  rw [h]
  norm_num [List.map]

/-- C5 counterexample: setAudioSource itself does not touch the clients:
a client whose isReady is true before the call still has isReady true
after it (the reset to false happens in the websocket handlers, after the
call). -/
theorem setAudioSource_counterexample :
    (lookupA "s"
        (setAudioSource
          { sessions := [("s",
              { id := "s", createdAt := 0, audioSource := none
                playbackState := { isPlaying := false, currentTime := 0, lastSyncTimestamp := 0 }
                clients := [{ id := "A", wsOpen := true, assignedChannel := .left
                              latency := 0, isReady := true }] })] }
          "s"
          { url := "u", title := "t", duration := 1
            files := { stereo := "s.mp3", left := "l.mp3", right := "r.mp3" } }
          5).sessions).map (fun s => s.clients.map ClientInfo.isReady) = some [true] := by
  rfl

theorem saveState_fold_notin (entries : List (String × Session))
    (dsk : List (String × PersistedSession)) (k : String)
    (h : k ∉ entries.map Prod.fst) :
    lookupA k (entries.foldl saveStateStep dsk) = lookupA k dsk := by
  induction entries generalizing dsk with
  | nil => rfl
  | cons e es ih =>
      simp only [List.map_cons, List.mem_cons] at h
      push_neg at h
      simp only [List.foldl_cons]
      rw [ih _ h.2]
      unfold saveStateStep
      cases e.2.audioSource with
      | none => rfl
      | some a => exact lookupA_setA_ne _ _ _ _ (fun hh => h.1 hh.symm)

theorem saveState_fold_found (entries : List (String × Session))
    (dsk : List (String × PersistedSession)) (k : String) (s : Session)
    (hnd : (entries.map Prod.fst).Nodup)
    (hlk : lookupA k entries = some s) (hsome : s.audioSource.isSome) :
    lookupA k (entries.foldl saveStateStep dsk) =
      some { id := s.id, createdAt := s.createdAt, audioSource := s.audioSource } := by
  induction entries generalizing dsk with
  | nil => simp [lookupA] at hlk
  | cons e es ih =>
      obtain ⟨k2, t⟩ := e
      simp only [List.map_cons, List.nodup_cons] at hnd
      by_cases he : k2 = k
      · have hts : t = s := by
          simp [lookupA, he] at hlk
          exact hlk
        subst hts
        subst he
        simp only [List.foldl_cons]
        rw [saveState_fold_notin es _ k2 hnd.1]
        obtain ⟨a, ha⟩ := Option.isSome_iff_exists.mp hsome
        unfold saveStateStep
        simp only [ha]
        exact lookupA_setA_self _ _ _
      · have hlk2 : lookupA k es = some s := by
          simpa [lookupA, he] using hlk
        simp only [List.foldl_cons]
        exact ih _ hnd.2 hlk2

theorem loadState_fold_notin (entries : List (String × PersistedSession))
    (acc : List (String × Session)) (k : String) (now : ℤ)
    (h : k ∉ entries.map Prod.fst) :
    lookupA k (entries.foldl (loadStateStep now) acc) = lookupA k acc := by
  induction entries generalizing acc with
  | nil => rfl
  | cons e es ih =>
      simp only [List.map_cons, List.mem_cons] at h
      push_neg at h
      simp only [List.foldl_cons]
      rw [ih _ h.2]
      unfold loadStateStep
      cases e.2.audioSource with
      | none => rfl
      | some a => exact lookupA_setA_ne _ _ _ _ (fun hh => h.1 hh.symm)

theorem loadState_fold_found (entries : List (String × PersistedSession))
    (acc : List (String × Session)) (k : String) (p : PersistedSession) (now : ℤ)
    (hnd : (entries.map Prod.fst).Nodup)
    (hlk : lookupA k entries = some p) (hsome : p.audioSource.isSome) :
    lookupA k (entries.foldl (loadStateStep now) acc) =
      some { id := p.id, createdAt := p.createdAt, audioSource := p.audioSource
             playbackState := { isPlaying := false, currentTime := 0, lastSyncTimestamp := now }
             clients := [] } := by
  induction entries generalizing acc with
  | nil => simp [lookupA] at hlk
  | cons e es ih =>
      obtain ⟨k2, t⟩ := e
      simp only [List.map_cons, List.nodup_cons] at hnd
      by_cases he : k2 = k
      · have hts : t = p := by
          simp [lookupA, he] at hlk
          exact hlk
        subst hts
        subst he
        simp only [List.foldl_cons]
        rw [loadState_fold_notin es _ k2 now hnd.1]
        obtain ⟨a, ha⟩ := Option.isSome_iff_exists.mp hsome
        unfold loadStateStep
        simp only [ha]
        exact lookupA_setA_self _ _ _
      · have hlk2 : lookupA k es = some p := by
          simpa [lookupA, he] using hlk
        simp only [List.foldl_cons]
        exact ih _ hnd.2 hlk2

theorem setA_map_fst {α : Type} (k : String) (v : α) (m : List (String × α)) :
    (setA k v m).map Prod.fst =
      if k ∈ m.map Prod.fst then m.map Prod.fst else m.map Prod.fst ++ [k] := by
  induction m with
  | nil => simp [setA]
  | cons e rest ih =>
      obtain ⟨k2, w⟩ := e
      by_cases h : k2 = k
      · subst h
        simp [setA]
      · simp only [setA, if_neg h, List.map_cons, ih]
        have hne : ¬(k = k2) := fun hh => h hh.symm
        by_cases hm : k ∈ rest.map Prod.fst
        · simp [hm, hne]
        · simp [hm, hne]

theorem nodup_setA {α : Type} (k : String) (v : α) (m : List (String × α))
    (h : (m.map Prod.fst).Nodup) : ((setA k v m).map Prod.fst).Nodup := by
  rw [setA_map_fst]
  by_cases hm : k ∈ m.map Prod.fst
  · simpa [hm] using h
  · simp only [if_neg hm]
    rw [← List.concat_eq_append]
    exact List.Nodup.concat hm h

theorem saveState_fold_nodup (entries : List (String × Session))
    (dsk : List (String × PersistedSession))
    (h : (dsk.map Prod.fst).Nodup) :
    (((entries.foldl saveStateStep dsk)).map Prod.fst).Nodup := by
  induction entries generalizing dsk with
  | nil => exact h
  | cons e es ih =>
      simp only [List.foldl_cons]
      apply ih
      unfold saveStateStep
      cases e.2.audioSource with
      | none => exact h
      | some a => exact nodup_setA _ _ _ h

/-- C5 (amended): setAudioSource binds the track, resets the playback
state to not-playing at position 0 with a fresh lastSyncTimestamp, and
persists the binding; the per-client isReady reset is performed by the
websocket handlers right after the call (modelled by handleTrackBind);
after a restart, rehydrating from the persisted document restores the
session with the bound track, playbackState reset at load time, and an
empty roster. -/
theorem setAudioSource_binds_resets_persists :
    ∀ (mgr : SessionMgr) (disk : PersistedState) (sid : String) (a : AudioSource)
      (now now2 : ℤ) (session : Session),
      (mgr.sessions.map Prod.fst).Nodup →
      (disk.sessions.map Prod.fst).Nodup →
      lookupA sid mgr.sessions = some session →
      lookupA sid (setAudioSource mgr sid a now).sessions =
        some { session with
                 audioSource := some a
                 playbackState :=
                   { isPlaying := false, currentTime := 0, lastSyncTimestamp := now } } ∧
      lookupA sid (handleTrackBind mgr disk sid a now).1.sessions =
        some { session with
                 audioSource := some a
                 playbackState :=
                   { isPlaying := false, currentTime := 0, lastSyncTimestamp := now }
                 clients := session.clients.map (fun c => { c with isReady := false }) } ∧
      lookupA sid (loadState (saveState (setAudioSource mgr sid a now) disk) now2).sessions =
        some { id := session.id, createdAt := session.createdAt
               audioSource := some a
               playbackState :=
                 { isPlaying := false, currentTime := 0, lastSyncTimestamp := now2 }
               clients := [] } := by
  intro mgr disk sid a now now2 session hndm hndd hlook
  have hset : lookupA sid (setAudioSource mgr sid a now).sessions =
      some { session with
               audioSource := some a
               playbackState :=
                 { isPlaying := false, currentTime := 0, lastSyncTimestamp := now } } := by
    simp only [setAudioSource, hlook]
    exact lookupA_setA_self _ _ _
  have hndm2 : ((setAudioSource mgr sid a now).sessions.map Prod.fst).Nodup := by
    simp only [setAudioSource, hlook]
    exact nodup_setA _ _ _ hndm
  refine ⟨hset, ?_, ?_⟩
  · simp only [handleTrackBind, hset]
    exact lookupA_setA_self _ _ _
  · have hsave : lookupA sid (saveState (setAudioSource mgr sid a now) disk).sessions =
        some { id := session.id, createdAt := session.createdAt, audioSource := some a } := by
      unfold saveState
      exact saveState_fold_found _ _ _ _ hndm2 hset rfl
    have hnds : ((saveState (setAudioSource mgr sid a now) disk).sessions.map Prod.fst).Nodup := by
      unfold saveState
      exact saveState_fold_nodup _ _ hndd
    unfold loadState
    exact loadState_fold_found _ _ _ _ _ hnds hsave rfl

/-- C5 witness: the amended statement at a concrete one-client session. -/
theorem setAudioSource_binds_resets_persists_witness :
    lookupA "s"
        (loadState
          (saveState
            (setAudioSource
              { sessions := [("s",
                  { id := "s", createdAt := 3, audioSource := none
                    playbackState := { isPlaying := true, currentTime := 7, lastSyncTimestamp := 1 }
                    clients := [{ id := "A", wsOpen := true, assignedChannel := .left
                                  latency := 0, isReady := true }] })] }
              "s"
              { url := "u", title := "t", duration := 1
                files := { stereo := "s.mp3", left := "l.mp3", right := "r.mp3" } }
              5)
            { sessions := [] })
          9).sessions =
      some { id := "s", createdAt := 3
             audioSource := some
               { url := "u", title := "t", duration := 1
                 files := { stereo := "s.mp3", left := "l.mp3", right := "r.mp3" } }
             playbackState := { isPlaying := false, currentTime := 0, lastSyncTimestamp := 9 }
             clients := [] } :=
  (setAudioSource_binds_resets_persists
    { sessions := [("s",
        { id := "s", createdAt := 3, audioSource := none
          playbackState := { isPlaying := true, currentTime := 7, lastSyncTimestamp := 1 }
          clients := [{ id := "A", wsOpen := true, assignedChannel := .left
                        latency := 0, isReady := true }] })] }
    { sessions := [] } "s"
    { url := "u", title := "t", duration := 1
      files := { stereo := "s.mp3", left := "l.mp3", right := "r.mp3" } }
    5 9
    { id := "s", createdAt := 3, audioSource := none
      playbackState := { isPlaying := true, currentTime := 7, lastSyncTimestamp := 1 }
      clients := [{ id := "A", wsOpen := true, assignedChannel := .left
                    latency := 0, isReady := true }] }
    (by simp) (by simp) (by simp [lookupA])).2.2

theorem setClientReady_keeps (mgr : SessionMgr) (sid2 cid : String) (r : Bool)
    (sid : String) (s : Session) (h : lookupA sid mgr.sessions = some s) :
    ∃ s2, lookupA sid (setClientReady mgr sid2 cid r).sessions = some s2 ∧
      s2.audioSource = s.audioSource := by
  unfold setClientReady
  cases hl : lookupA sid2 mgr.sessions with
  | none => exact ⟨s, h, rfl⟩
  | some sess =>
      by_cases he : sid2 = sid
      · subst he
        have hs : sess = s := Option.some.inj (hl.symm.trans h)
        subst hs
        exact ⟨_, lookupA_setA_self _ _ _, rfl⟩
      · exact ⟨s, by rw [lookupA_setA_ne _ _ _ _ he]; exact h, rfl⟩

theorem setClientLatency_keeps (mgr : SessionMgr) (sid2 cid : String) (l : ℚ)
    (sid : String) (s : Session) (h : lookupA sid mgr.sessions = some s) :
    ∃ s2, lookupA sid (setClientLatency mgr sid2 cid l).sessions = some s2 ∧
      s2.audioSource = s.audioSource := by
  unfold setClientLatency
  cases hl : lookupA sid2 mgr.sessions with
  | none => exact ⟨s, h, rfl⟩
  | some sess =>
      by_cases he : sid2 = sid
      · subst he
        have hs : sess = s := Option.some.inj (hl.symm.trans h)
        subst hs
        exact ⟨_, lookupA_setA_self _ _ _, rfl⟩
      · exact ⟨s, by rw [lookupA_setA_ne _ _ _ _ he]; exact h, rfl⟩

theorem updatePlaybackState_keeps (mgr : SessionMgr) (sid2 : String)
    (patch : PlaybackPatch) (now : ℤ)
    (sid : String) (s : Session) (h : lookupA sid mgr.sessions = some s) :
    ∃ s2, lookupA sid (updatePlaybackState mgr sid2 patch now).sessions = some s2 ∧
      s2.audioSource = s.audioSource := by
  unfold updatePlaybackState
  cases hl : lookupA sid2 mgr.sessions with
  | none => exact ⟨s, h, rfl⟩
  | some sess =>
      by_cases he : sid2 = sid
      · subst he
        have hs : sess = s := Option.some.inj (hl.symm.trans h)
        subst hs
        exact ⟨_, lookupA_setA_self _ _ _, rfl⟩
      · exact ⟨s, by rw [lookupA_setA_ne _ _ _ _ he]; exact h, rfl⟩

theorem setAudioSource_keeps (mgr : SessionMgr) (sid2 : String) (a : AudioSource)
    (now : ℤ) (sid : String) (s : Session) (h : lookupA sid mgr.sessions = some s) :
    ∃ s2, lookupA sid (setAudioSource mgr sid2 a now).sessions = some s2 ∧
      (s.audioSource.isSome = true → s2.audioSource.isSome = true) := by
  unfold setAudioSource
  cases hl : lookupA sid2 mgr.sessions with
  | none => exact ⟨s, h, fun hh => hh⟩
  | some sess =>
      by_cases he : sid2 = sid
      · subst he
        exact ⟨_, lookupA_setA_self _ _ _, fun _ => rfl⟩
      · exact ⟨s, by rw [lookupA_setA_ne _ _ _ _ he]; exact h, fun hh => hh⟩

theorem removeClient_keeps (mgr : SessionMgr) (sid2 cid : String)
    (sid : String) (s : Session) (h : lookupA sid mgr.sessions = some s) :
    ∃ s2, lookupA sid (removeClient mgr sid2 cid).1.sessions = some s2 ∧
      s2.audioSource = s.audioSource := by
  unfold removeClient
  cases hl : lookupA sid2 mgr.sessions with
  | none => exact ⟨s, h, rfl⟩
  | some sess =>
      by_cases he : sid2 = sid
      · subst he
        have hs : sess = s := Option.some.inj (hl.symm.trans h)
        subst hs
        exact ⟨_, lookupA_setA_self _ _ _, rfl⟩
      · exact ⟨s, by rw [lookupA_setA_ne _ _ _ _ he]; exact h, rfl⟩

theorem addClient_keeps (mgr : SessionMgr) (sid2 cid : String) (now : ℤ)
    (sid : String) (s : Session) (h : lookupA sid mgr.sessions = some s) :
    ∃ s2, lookupA sid (addClient mgr sid2 cid now).1.sessions = some s2 ∧
      s2.audioSource = s.audioSource := by
  unfold addClient getOrCreateSession
  cases hl : lookupA sid2 mgr.sessions with
  | some sess =>
      by_cases he : sid2 = sid
      · subst he
        have hs : sess = s := Option.some.inj (hl.symm.trans h)
        subst hs
        exact ⟨_, lookupA_setA_self _ _ _, rfl⟩
      · exact ⟨s, by rw [lookupA_setA_ne _ _ _ _ he]; exact h, rfl⟩
  | none =>
      by_cases he : sid2 = sid
      · subst he
        rw [hl] at h
        cases h
      · refine ⟨s, ?_, rfl⟩
        rw [lookupA_setA_ne _ _ _ _ he, lookupA_setA_ne _ _ _ _ he]
        exact h

theorem handlePlayRequest_keeps (mgr : SessionMgr) (sid2 : String) (now : ℤ)
    (sid : String) (s : Session) (h : lookupA sid mgr.sessions = some s) :
    ∃ s2, lookupA sid (handlePlayRequest mgr sid2 now).1.sessions = some s2 ∧
      s2.audioSource = s.audioSource := by
  unfold handlePlayRequest
  cases hl : lookupA sid2 mgr.sessions with
  | none => exact ⟨s, h, rfl⟩
  | some sess =>
      dsimp only
      cases ha : sess.audioSource with
      | none => exact ⟨s, h, rfl⟩
      | some a => exact updatePlaybackState_keeps mgr sid2 _ now sid s h

theorem sweepSession_keeps (mgr : SessionMgr) (sid2 sid : String) (s : Session)
    (h : lookupA sid mgr.sessions = some s) (hs : s.audioSource.isSome = true) :
    lookupA sid (sweepSession mgr sid2).sessions = some s := by
  unfold sweepSession
  cases hl : lookupA sid2 mgr.sessions with
  | none => exact h
  | some t =>
      dsimp only
      by_cases hg : (t.clients.isEmpty && t.audioSource.isNone) = true
      · rw [if_pos hg]
        by_cases he : sid2 = sid
        · subst he
          have hts : t = s := Option.some.inj (hl.symm.trans h)
          subst hts
          simp only [Bool.and_eq_true] at hg
          rw [Option.isNone_iff_eq_none] at hg
          rw [hg.2] at hs
          cases hs
        · rw [lookupA_eraseA_ne _ _ _ he]
          exact h
      · rw [if_neg hg]
        exact h

theorem sweepSession_delete_char (mgr : SessionMgr) (sid2 sid : String) (s : Session)
    (h : lookupA sid mgr.sessions = some s)
    (hafter : lookupA sid (sweepSession mgr sid2).sessions = none) :
    sid2 = sid ∧ s.clients = [] ∧ s.audioSource = none := by
  unfold sweepSession at hafter
  cases hl : lookupA sid2 mgr.sessions with
  | none =>
      rw [hl] at hafter
      rw [h] at hafter
      cases hafter
  | some t =>
      rw [hl] at hafter
      dsimp only at hafter
      by_cases hg : (t.clients.isEmpty && t.audioSource.isNone) = true
      · rw [if_pos hg] at hafter
        by_cases he : sid2 = sid
        · subst he
          have hts : t = s := Option.some.inj (hl.symm.trans h)
          subst hts
          simp only [Bool.and_eq_true] at hg
          exact ⟨rfl, List.isEmpty_iff.mp hg.1, Option.isNone_iff_eq_none.mp hg.2⟩
        · rw [lookupA_eraseA_ne _ _ _ he, h] at hafter
          cases hafter
      · rw [if_neg hg, h] at hafter
        cases hafter

theorem sweepSession_deletes (mgr : SessionMgr) (sid : String) (s : Session)
    (h : lookupA sid mgr.sessions = some s)
    (hc : s.clients = []) (ha : s.audioSource = none) :
    lookupA sid (sweepSession mgr sid).sessions = none := by
  unfold sweepSession
  rw [h]
  simp only [hc, ha]
  simp [lookupA_eraseA_self]

theorem count_snoc (l : List (String × ℤ)) (a b : String × ℤ) :
    (l ++ [b]).count a = l.count a + if a = b then 1 else 0 := by
  rw [List.count_append]
  by_cases h : a = b <;> simp [List.count_singleton, h, List.count_eq_zero]

theorem count_erase_pair (l : List (String × ℤ)) (a b : String × ℤ) :
    (l.erase a).count b = l.count b - if a = b then 1 else 0 := by
  rw [List.count_erase]
  by_cases h : a = b <;> simp [h]

theorem svStep_keeps_trackful (w : SweepWorld) (e : SvEvent) (sid : String)
    (h : trackful w.mgr sid) : trackful (svStep w e).mgr sid := by
  obtain ⟨s, hl, hs⟩ := h
  cases e with
  | join sid2 cid now =>
      obtain ⟨s2, h2, heq⟩ := addClient_keeps w.mgr sid2 cid now sid s hl
      exact ⟨s2, h2, by rw [heq]; exact hs⟩
  | leave sid2 cid now =>
      obtain ⟨s2, h2, heq⟩ := removeClient_keeps w.mgr sid2 cid sid s hl
      exact ⟨s2, h2, by rw [heq]; exact hs⟩
  | bindTrack sid2 src now =>
      obtain ⟨s2, h2, himp⟩ := setAudioSource_keeps w.mgr sid2 src now sid s hl
      exact ⟨s2, h2, himp hs⟩
  | playReq sid2 now =>
      obtain ⟨s2, h2, heq⟩ := handlePlayRequest_keeps w.mgr sid2 now sid s hl
      exact ⟨s2, h2, by rw [heq]; exact hs⟩
  | pauseReq sid2 now =>
      obtain ⟨s2, h2, heq⟩ := updatePlaybackState_keeps w.mgr sid2 _ now sid s hl
      exact ⟨s2, h2, by rw [heq]; exact hs⟩
  | seekReq sid2 t now =>
      obtain ⟨s2, h2, heq⟩ := updatePlaybackState_keeps w.mgr sid2 _ now sid s hl
      exact ⟨s2, h2, by rw [heq]; exact hs⟩
  | readyMark sid2 cid =>
      obtain ⟨s2, h2, heq⟩ := setClientReady_keeps w.mgr sid2 cid true sid s hl
      exact ⟨s2, h2, by rw [heq]; exact hs⟩
  | latencyMark sid2 cid lat =>
      obtain ⟨s2, h2, heq⟩ := setClientLatency_keeps w.mgr sid2 cid lat sid s hl
      exact ⟨s2, h2, by rw [heq]; exact hs⟩
  | sweepFire sid2 t =>
      simp only [svStep]
      by_cases hm : (sid2, t) ∈ w.sweeps
      · rw [if_pos hm]
        exact ⟨s, sweepSession_keeps w.mgr sid2 sid s hl hs, hs⟩
      · rw [if_neg hm]
        exact ⟨s, hl, hs⟩

theorem svRun_keeps_trackful (es : List SvEvent) :
    ∀ (w : SweepWorld) (sid : String),
      trackful w.mgr sid → trackful (svRun w es).mgr sid := by
  induction es with
  | nil => exact fun w sid h => h
  | cons e es ih =>
      exact fun w sid h => ih (svStep w e) sid (svStep_keeps_trackful w e sid h)

theorem svStep_delete_char (w : SweepWorld) (e : SvEvent) (sid : String) (s : Session)
    (h : lookupA sid w.mgr.sessions = some s)
    (hafter : lookupA sid (svStep w e).mgr.sessions = none) :
    ∃ t, e = .sweepFire sid t ∧ (sid, t) ∈ w.sweeps ∧
      s.clients = [] ∧ s.audioSource = none := by
  cases e with
  | join sid2 cid now =>
      obtain ⟨s2, h2, _⟩ := addClient_keeps w.mgr sid2 cid now sid s h
      rw [show (svStep w (.join sid2 cid now)).mgr = (addClient w.mgr sid2 cid now).1
        from rfl, h2] at hafter
      cases hafter
  | leave sid2 cid now =>
      obtain ⟨s2, h2, _⟩ := removeClient_keeps w.mgr sid2 cid sid s h
      rw [show (svStep w (.leave sid2 cid now)).mgr = (removeClient w.mgr sid2 cid).1
        from rfl, h2] at hafter
      cases hafter
  | bindTrack sid2 src now =>
      obtain ⟨s2, h2, _⟩ := setAudioSource_keeps w.mgr sid2 src now sid s h
      rw [show (svStep w (.bindTrack sid2 src now)).mgr = setAudioSource w.mgr sid2 src now
        from rfl, h2] at hafter
      cases hafter
  | playReq sid2 now =>
      obtain ⟨s2, h2, _⟩ := handlePlayRequest_keeps w.mgr sid2 now sid s h
      rw [show (svStep w (.playReq sid2 now)).mgr = (handlePlayRequest w.mgr sid2 now).1
        from rfl, h2] at hafter
      cases hafter
  | pauseReq sid2 now =>
      obtain ⟨s2, h2, _⟩ := updatePlaybackState_keeps w.mgr sid2
        { isPlaying := some false, currentTime := none } now sid s h
      rw [show (svStep w (.pauseReq sid2 now)).mgr =
        updatePlaybackState w.mgr sid2 { isPlaying := some false, currentTime := none } now
        from rfl, h2] at hafter
      cases hafter
  | seekReq sid2 tg now =>
      obtain ⟨s2, h2, _⟩ := updatePlaybackState_keeps w.mgr sid2
        { isPlaying := none, currentTime := some tg } now sid s h
      rw [show (svStep w (.seekReq sid2 tg now)).mgr =
        updatePlaybackState w.mgr sid2 { isPlaying := none, currentTime := some tg } now
        from rfl, h2] at hafter
      cases hafter
  | readyMark sid2 cid =>
      obtain ⟨s2, h2, _⟩ := setClientReady_keeps w.mgr sid2 cid true sid s h
      rw [show (svStep w (.readyMark sid2 cid)).mgr = setClientReady w.mgr sid2 cid true
        from rfl, h2] at hafter
      cases hafter
  | latencyMark sid2 cid lat =>
      obtain ⟨s2, h2, _⟩ := setClientLatency_keeps w.mgr sid2 cid lat sid s h
      rw [show (svStep w (.latencyMark sid2 cid lat)).mgr = setClientLatency w.mgr sid2 cid lat
        from rfl, h2] at hafter
      cases hafter
  | sweepFire sid2 t =>
      simp only [svStep] at hafter
      by_cases hm : (sid2, t) ∈ w.sweeps
      · rw [if_pos hm] at hafter
        obtain ⟨heq, hc, ha⟩ := sweepSession_delete_char w.mgr sid2 sid s h hafter
        subst heq
        exact ⟨t, rfl, hm, hc, ha⟩
      · rw [if_neg hm] at hafter
        rw [h] at hafter
        cases hafter

theorem svStep_sweep_deletes (w : SweepWorld) (sid : String) (t : ℤ) (s : Session)
    (hm : (sid, t) ∈ w.sweeps) (h : lookupA sid w.mgr.sessions = some s)
    (hc : s.clients = []) (ha : s.audioSource = none) :
    lookupA sid (svStep w (.sweepFire sid t)).mgr.sessions = none := by
  simp only [svStep]
  rw [if_pos hm]
  exact sweepSession_deletes w.mgr sid s h hc ha

theorem svStep_sim (c s : SweepWorld) (e : SvEvent)
    (hmgr : c.mgr = s.mgr)
    (hle : ∀ p : String × ℤ, c.sweeps.count p ≤ s.sweeps.count p)
    (hextra : ∀ p : String × ℤ, c.sweeps.count p < s.sweeps.count p → trackful c.mgr p.1) :
    (svStep c e).mgr = (svStepSpec s e).mgr ∧
    (∀ p : String × ℤ, (svStep c e).sweeps.count p ≤ (svStepSpec s e).sweeps.count p) ∧
    (∀ p : String × ℤ, (svStep c e).sweeps.count p < (svStepSpec s e).sweeps.count p →
      trackful (svStep c e).mgr p.1) := by
  cases e with
  | join sid2 cid now =>
      refine ⟨?_, fun p => hle p, fun p hp => svStep_keeps_trackful c _ p.1 (hextra p hp)⟩
      show (addClient c.mgr sid2 cid now).1 = (addClient s.mgr sid2 cid now).1
      rw [hmgr]
  | bindTrack sid2 src now =>
      refine ⟨?_, fun p => hle p, fun p hp => svStep_keeps_trackful c _ p.1 (hextra p hp)⟩
      show setAudioSource c.mgr sid2 src now = setAudioSource s.mgr sid2 src now
      rw [hmgr]
  | playReq sid2 now =>
      refine ⟨?_, fun p => hle p, fun p hp => svStep_keeps_trackful c _ p.1 (hextra p hp)⟩
      show (handlePlayRequest c.mgr sid2 now).1 = (handlePlayRequest s.mgr sid2 now).1
      rw [hmgr]
  | pauseReq sid2 now =>
      refine ⟨?_, fun p => hle p, fun p hp => svStep_keeps_trackful c _ p.1 (hextra p hp)⟩
      show updatePlaybackState c.mgr sid2 _ now = updatePlaybackState s.mgr sid2 _ now
      rw [hmgr]
  | seekReq sid2 tg now =>
      refine ⟨?_, fun p => hle p, fun p hp => svStep_keeps_trackful c _ p.1 (hextra p hp)⟩
      show updatePlaybackState c.mgr sid2 _ now = updatePlaybackState s.mgr sid2 _ now
      rw [hmgr]
  | readyMark sid2 cid =>
      refine ⟨?_, fun p => hle p, fun p hp => svStep_keeps_trackful c _ p.1 (hextra p hp)⟩
      show setClientReady c.mgr sid2 cid true = setClientReady s.mgr sid2 cid true
      rw [hmgr]
  | latencyMark sid2 cid lat =>
      refine ⟨?_, fun p => hle p, fun p hp => svStep_keeps_trackful c _ p.1 (hextra p hp)⟩
      show setClientLatency c.mgr sid2 cid lat = setClientLatency s.mgr sid2 cid lat
      rw [hmgr]
  | leave sid2 cid now =>
      cases hl : lookupA sid2 c.mgr.sessions with
      | none =>
          have hl2 : lookupA sid2 s.mgr.sessions = none := by rw [← hmgr]; exact hl
          have hcode : svStep c (.leave sid2 cid now) = c := by
            simp only [svStep]
            unfold removeClient
            rw [hl]
            rfl
          have hspec : svStepSpec s (.leave sid2 cid now) = s := by
            simp only [svStepSpec, hl2]
            unfold removeClient
            rw [hl2]
          rw [hcode, hspec]
          exact ⟨hmgr, hle, hextra⟩
      | some sess =>
          have hl2 : lookupA sid2 s.mgr.sessions = some sess := by rw [← hmgr]; exact hl
          have hrc : removeClient c.mgr sid2 cid =
              ({ sessions := setA sid2
                  { sess with clients := sess.clients.filter (fun cc => cc.id ≠ cid) }
                  c.mgr.sessions },
               ({ sess with clients := sess.clients.filter (fun cc => cc.id ≠ cid) } :
                  Session).clients.isEmpty &&
                 ({ sess with clients := sess.clients.filter (fun cc => cc.id ≠ cid) } :
                    Session).audioSource.isNone) := by
            unfold removeClient
            rw [hl]
          have hkeep : ∀ q, trackful c.mgr q →
              trackful ({ sessions := setA sid2
                            { sess with clients := sess.clients.filter (fun cc => cc.id ≠ cid) }
                            c.mgr.sessions } : SessionMgr) q := by
            intro q hq
            obtain ⟨t0, hlt, hst⟩ := hq
            obtain ⟨t2, h2, heq⟩ := removeClient_keeps c.mgr sid2 cid q t0 hlt
            rw [hrc] at h2
            exact ⟨t2, h2, by rw [heq]; exact hst⟩
          have hcode : svStep c (.leave sid2 cid now) =
              { mgr := { sessions := setA sid2
                                       { sess with clients := sess.clients.filter (fun cc => cc.id ≠ cid) }
                                       c.mgr.sessions }
                sweeps :=
                  if ((sess.clients.filter (fun cc => cc.id ≠ cid)).isEmpty &&
                      sess.audioSource.isNone) = true
                  then c.sweeps ++ [(sid2, now + 60000)] else c.sweeps } := by
            simp only [svStep, hrc]
          have hspec : svStepSpec s (.leave sid2 cid now) =
              { mgr := { sessions := setA sid2
                                       { sess with clients := sess.clients.filter (fun cc => cc.id ≠ cid) }
                                       s.mgr.sessions }
                sweeps :=
                  if (sess.clients.filter (fun cc => cc.id ≠ cid)).isEmpty = true
                  then s.sweeps ++ [(sid2, now + 60000)] else s.sweeps } := by
            simp only [svStepSpec, hl2]
          rw [hcode, hspec]
          by_cases hcE : (sess.clients.filter (fun cc => cc.id ≠ cid)).isEmpty = true
          · by_cases hcN : sess.audioSource.isNone = true
            · simp only [hcE, hcN, Bool.and_self, if_pos]
              refine ⟨by rw [hmgr], fun p => ?_, fun p hp => hkeep p.1 (hextra p ?_)⟩
              · rw [count_snoc, count_snoc]
                have := hle p
                omega
              · rw [count_snoc, count_snoc] at hp
                by_cases hδ : p = (sid2, now + 60000)
                · subst hδ
                  simp at hp
                  omega
                · simp [hδ] at hp
                  omega
            · have hsome : sess.audioSource.isSome = true := by
                cases hox : sess.audioSource <;> simp [hox] at hcN ⊢
              simp only [hcE, hcN, Bool.and_false, Bool.true_and, if_pos, if_neg,
                Bool.false_eq_true, not_false_eq_true]
              refine ⟨by rw [hmgr], fun p => ?_, fun p hp => ?_⟩
              · rw [count_snoc]
                have := hle p
                omega
              · rw [count_snoc] at hp
                by_cases hδ : p = (sid2, now + 60000)
                · subst hδ
                  exact ⟨_, lookupA_setA_self _ _ _, hsome⟩
                · simp [hδ] at hp
                  exact hkeep p.1 (hextra p hp)
          · simp only [hcE, Bool.false_and, if_neg, Bool.false_eq_true, not_false_eq_true]
            exact ⟨by rw [hmgr], hle, fun p hp => hkeep p.1 (hextra p hp)⟩
  | sweepFire sid2 t =>
      by_cases hmc : (sid2, t) ∈ c.sweeps
      · have hms : (sid2, t) ∈ s.sweeps := by
          have h1 : 0 < c.sweeps.count (sid2, t) := List.count_pos_iff.mpr hmc
          exact List.count_pos_iff.mp (lt_of_lt_of_le h1 (hle _))
        simp only [svStep, svStepSpec]
        rw [if_pos hmc, if_pos hms]
        refine ⟨?_, fun p => ?_, fun p hp => ?_⟩
        · show sweepSession c.mgr sid2 = sweepSession s.mgr sid2
          rw [hmgr]
        · show (c.sweeps.erase (sid2, t)).count p ≤ (s.sweeps.erase (sid2, t)).count p
          rw [count_erase_pair, count_erase_pair]
          have := hle p
          omega
        · show trackful (sweepSession c.mgr sid2) p.1
          rw [count_erase_pair, count_erase_pair] at hp
          have hlt : c.sweeps.count p < s.sweeps.count p := by
            by_cases hδ : ((sid2, t) : String × ℤ) = p <;> simp [hδ] at hp <;> omega
          obtain ⟨t0, hlt0, hst⟩ := hextra p hlt
          exact ⟨t0, sweepSession_keeps c.mgr sid2 p.1 t0 hlt0 hst, hst⟩
      · by_cases hms : (sid2, t) ∈ s.sweeps
        · have hlt : c.sweeps.count (sid2, t) < s.sweeps.count (sid2, t) := by
            have h0 : c.sweeps.count (sid2, t) = 0 := List.count_eq_zero.mpr hmc
            have h1 : 0 < s.sweeps.count (sid2, t) := List.count_pos_iff.mpr hms
            omega
          have htr : trackful c.mgr sid2 := hextra (sid2, t) hlt
          have hnoop : sweepSession s.mgr sid2 = s.mgr := by
            obtain ⟨t0, hl0, hs0⟩ := htr
            have hl0s : lookupA sid2 s.mgr.sessions = some t0 := by rw [← hmgr]; exact hl0
            unfold sweepSession
            rw [hl0s]
            have hno : t0.audioSource.isNone = false := by
              cases hox : t0.audioSource <;> simp [hox] at hs0 ⊢
            simp [hno]
          simp only [svStep, svStepSpec]
          rw [if_neg hmc, if_pos hms]
          refine ⟨?_, fun p => ?_, fun p hp => ?_⟩
          · show c.mgr = sweepSession s.mgr sid2
            rw [hnoop, hmgr]
          · show c.sweeps.count p ≤ (s.sweeps.erase (sid2, t)).count p
            rw [count_erase_pair]
            by_cases hδ : ((sid2, t) : String × ℤ) = p
            · rw [← hδ]
              simp [List.count_eq_zero.mpr hmc]
            · simp only [if_neg hδ]
              have := hle p
              omega
          · show trackful c.mgr p.1
            rw [count_erase_pair] at hp
            have hlt2 : c.sweeps.count p < s.sweeps.count p := by
              by_cases hδ : ((sid2, t) : String × ℤ) = p <;> simp [hδ] at hp <;> omega
            exact hextra p hlt2
        · simp only [svStep, svStepSpec]
          rw [if_neg hmc, if_neg hms]
          exact ⟨hmgr, hle, hextra⟩

theorem svRun_sim (es : List SvEvent) :
    ∀ (c s : SweepWorld), c.mgr = s.mgr →
      (∀ p : String × ℤ, c.sweeps.count p ≤ s.sweeps.count p) →
      (∀ p : String × ℤ, c.sweeps.count p < s.sweeps.count p → trackful c.mgr p.1) →
      (svRun c es).mgr = (svRunSpec s es).mgr := by
  induction es with
  | nil => exact fun c s h _ _ => h
  | cons e es ih =>
      intro c s h1 h2 h3
      obtain ⟨g1, g2, g3⟩ := svStep_sim c s e h1 h2 h3
      exact ih (svStep c e) (svStepSpec s e) g1 g2 g3

/-- C7: a session is destroyed only by the idle sweep: any step that
deletes a session is the firing of an armed 60 s timer for it, and at
that moment the session is still empty and still trackless (first
conjunct); conversely firing an armed timer on a still-empty, still
trackless session does delete it (second conjunct); a session with a
bound audioSource is never deleted by any sequence of server events
(third conjunct); and arming the sweep unconditionally whenever the last
client detaches - the specification's wording - is observationally
equivalent on the session store to the code's arming it only when the
emptied session is also trackless (fourth conjunct). -/
theorem session_lifecycle_sweep :
    (∀ (w : SweepWorld) (e : SvEvent) (sid : String) (s : Session),
        lookupA sid w.mgr.sessions = some s →
        lookupA sid (svStep w e).mgr.sessions = none →
        ∃ t, e = .sweepFire sid t ∧ (sid, t) ∈ w.sweeps ∧
          s.clients = [] ∧ s.audioSource = none) ∧
    (∀ (w : SweepWorld) (sid : String) (t : ℤ) (s : Session),
        (sid, t) ∈ w.sweeps → lookupA sid w.mgr.sessions = some s →
        s.clients = [] → s.audioSource = none →
        lookupA sid (svStep w (.sweepFire sid t)).mgr.sessions = none) ∧
    (∀ (w : SweepWorld) (es : List SvEvent) (sid : String),
        trackful w.mgr sid → trackful (svRun w es).mgr sid) ∧
    (∀ es : List SvEvent, (svRun initialWorld es).mgr = (svRunSpec initialWorld es).mgr) :=
  ⟨fun w e sid s h hafter => svStep_delete_char w e sid s h hafter,
   fun w sid t s hm h hc ha => svStep_sweep_deletes w sid t s hm h hc ha,
   fun w es sid h => svRun_keeps_trackful es w sid h,
   fun es => svRun_sim es initialWorld initialWorld rfl (fun _ => Nat.le_refl _)
     (fun _ hp => absurd hp (Nat.lt_irrefl _))⟩

/-- C7 witness: firing the armed sweep of an empty, trackless session
deletes it. -/
theorem session_lifecycle_sweep_witness :
    lookupA "s"
        (svStep
          { mgr := { sessions := [("s",
              { id := "s", createdAt := 0, audioSource := none
                playbackState := { isPlaying := false, currentTime := 0, lastSyncTimestamp := 0 }
                clients := [] })] }
            sweeps := [("s", 60000)] }
          (.sweepFire "s" 60000)).mgr.sessions = none :=
  session_lifecycle_sweep.2.1
    { mgr := { sessions := [("s",
        { id := "s", createdAt := 0, audioSource := none
          playbackState := { isPlaying := false, currentTime := 0, lastSyncTimestamp := 0 }
          clients := [] })] }
      sweeps := [("s", 60000)] }
    "s" 60000
    { id := "s", createdAt := 0, audioSource := none
      playbackState := { isPlaying := false, currentTime := 0, lastSyncTimestamp := 0 }
      clients := [] }
    (by simp) (by simp [lookupA]) rfl rfl

end StereoPlay
